import Mathlib

/-! Machine connection management of mayfly-go.

A shallow embedding of `server/internal/machine/application/machine.go`:
credential resolution and tunnel-chain resolution (`toMachineInfo`,
`ToMachineInfoById`, `TestConn`), the configuration operations that evict
cached sessions (`SaveMachine`, `ChangeStatus`, `Delete`) and the unit of
work of the periodic statistics sweep (`TimerUpdateStats`).

Go pointers to records are passed by state: a function that receives
`me *entity.Machine` returns the record as it is after the call.  Calls to
collaborators that live outside the file (repository, auth-cert application,
tag application, connection manager, statistics cache) are fields of an
environment, and the calls whose order or absence matters are recorded in a
list, oldest first.  The recursion of `toMachineInfo` is bounded by a fuel
argument; `none` means that the fuel ran out before the call returned.
-/

namespace Mayfly

/-! ## Data model -/

/-- Value built by `errorx.NewBiz(msg)`. -/
structure BizError where
  msg : String
  deriving DecidableEq, Repr

/-- Constructor `errorx.NewBiz`. -/
def NewBiz (msg : String) : BizError := ⟨msg⟩

/-- Go conversion `uint64(x)` of an `int`: reduction modulo 2^64. -/
def uint64 (x : Int) : Nat := (x % 18446744073709551616).toNat

/-- Record `entity.Machine`, with the fields that machine.go reads or writes
(`Id` and `UpdateTime` come from the embedded `model.Model`). -/
structure Machine where
  Id : Nat
  UpdateTime : Option Nat
  Code : String
  Name : String
  Protocol : Int
  Ip : String
  Port : Int
  Username : String
  Password : String
  AuthCertId : Int
  Status : Int
  SshTunnelMachineId : Int
  EnableRecorder : Int
  deriving DecidableEq, Repr

/-- Zero value `new(entity.Machine)`. -/
def Machine.new : Machine :=
  { Id := 0, UpdateTime := none, Code := "", Name := "", Protocol := 0, Ip := "", Port := 0,
    Username := "", Password := "", AuthCertId := 0, Status := 0, SshTunnelMachineId := 0,
    EnableRecorder := 0 }

/-- Record `entity.AuthCert`, with the fields that machine.go reads. -/
structure AuthCert where
  Id : Nat
  AuthMethod : Int
  Password : String
  Passphrase : String
  deriving DecidableEq, Repr

/-- Descriptor `mcm.MachineInfo`; `SshTunnelMachine` is the nested descriptor of
the tunnel hop (a nil pointer is `none`). -/
inductive MachineInfo where
  | mk (Id : Nat) (Name : String) (Ip : String) (Port : Int) (Username : String)
      (TagPath : List String) (EnableRecorder : Int) (Protocol : Int) (AuthMethod : Int)
      (Password : String) (Passphrase : String) (SshTunnelMachine : Option MachineInfo)
  deriving Repr

namespace MachineInfo

def Id : MachineInfo → Nat
  | mk i _ _ _ _ _ _ _ _ _ _ _ => i

def Name : MachineInfo → String
  | mk _ n _ _ _ _ _ _ _ _ _ _ => n

def Ip : MachineInfo → String
  | mk _ _ a _ _ _ _ _ _ _ _ _ => a

def Port : MachineInfo → Int
  | mk _ _ _ p _ _ _ _ _ _ _ _ => p

def Username : MachineInfo → String
  | mk _ _ _ _ u _ _ _ _ _ _ _ => u

def TagPath : MachineInfo → List String
  | mk _ _ _ _ _ t _ _ _ _ _ _ => t

def EnableRecorder : MachineInfo → Int
  | mk _ _ _ _ _ _ r _ _ _ _ _ => r

def Protocol : MachineInfo → Int
  | mk _ _ _ _ _ _ _ p _ _ _ _ => p

def AuthMethod : MachineInfo → Int
  | mk _ _ _ _ _ _ _ _ a _ _ _ => a

def Password : MachineInfo → String
  | mk _ _ _ _ _ _ _ _ _ p _ _ => p

def Passphrase : MachineInfo → String
  | mk _ _ _ _ _ _ _ _ _ _ p _ => p

def SshTunnelMachine : MachineInfo → Option MachineInfo
  | mk _ _ _ _ _ _ _ _ _ _ _ t => t

/-- Assignment `mi.AuthMethod = a`. -/
def setAuthMethod : MachineInfo → Int → MachineInfo
  | mk i n a p u t r pr _ pw pp tn, am => mk i n a p u t r pr am pw pp tn

/-- Assignment `mi.Password = pw`. -/
def setPassword : MachineInfo → String → MachineInfo
  | mk i n a p u t r pr am _ pp tn, pw => mk i n a p u t r pr am pw pp tn

/-- Assignment `mi.Passphrase = pp`. -/
def setPassphrase : MachineInfo → String → MachineInfo
  | mk i n a p u t r pr am pw _ tn, pp => mk i n a p u t r pr am pw pp tn

/-- Assignment `mi.SshTunnelMachine = tn`. -/
def setSshTunnelMachine : MachineInfo → MachineInfo → MachineInfo
  | mk i n a p u t r pr am pw pp _, tn => mk i n a p u t r pr am pw pp (some tn)

/-- Number of nested `SshTunnelMachine` levels below a descriptor. -/
def depth : MachineInfo → Nat
  | mk _ _ _ _ _ _ _ _ _ _ _ none => 0
  | mk _ _ _ _ _ _ _ _ _ _ _ (some t) => depth t + 1

/-- Descriptor found `k` levels down the `SshTunnelMachine` pointers (level 0 is
the descriptor itself). -/
def level : MachineInfo → Nat → Option MachineInfo
  | mi, 0 => some mi
  | mk _ _ _ _ _ _ _ _ _ _ _ none, _ + 1 => none
  | mk _ _ _ _ _ _ _ _ _ _ _ (some t), k + 1 => level t k

end MachineInfo

/-- Invocation of a `PwdDecrypt` method, with the record it was invoked on. -/
inductive Call where
  | machinePwdDecrypt (me : Machine)
  | certPwdDecrypt (ac : AuthCert)
  deriving DecidableEq, Repr

/-- Collaborators and constants that machine.go uses and that are declared
outside it.
* `GetById id` is `m.GetById(new(entity.Machine), id)`: `none` when it returns
  an error;
* `authCertGetById id` is `m.authCertApp.GetById(new(entity.AuthCert), id)`;
* `UseAuthCert me` is `me.UseAuthCert()`;
* `decrypt` is the decryption capability: the plaintext or an error message;
* `certPwdDecrypt ac` is `ac.PwdDecrypt()`: the certificate after the call or
  the message of the returned error;
* `ListTagPathByResource code` is
  `m.tagApp.ListTagPathByResource(consts.TagResourceTypeMachine, code)`;
* the last three fields are the constants of package `entity`. -/
structure Env where
  GetById : Nat → Option Machine
  authCertGetById : Nat → Option AuthCert
  UseAuthCert : Machine → Bool
  decrypt : String → Except String String
  certPwdDecrypt : AuthCert → Except String AuthCert
  ListTagPathByResource : String → List String
  MachineStatusEnable : Int
  MachineStatusDisable : Int
  AuthCertAuthMethodPassword : Int

/-- Modelled from the spec: `entity.Machine.PwdDecrypt` is not under src/.  The
credential resolver "decrypt[s] its embedded secret" with the external
capability `decrypt(ciphertext) -> plaintext | DecryptError`; the method has a
pointer receiver and returns only an error, and its caller reads the plaintext
back from `me.Password` (machine.go 274-278), so on success the receiver's
`Password` holds the plaintext and on failure the receiver is left as it was. -/
def Machine.PwdDecrypt (env : Env) (me : Machine) : Machine × Option String :=
  match env.decrypt me.Password with
  | .ok password => ({ me with Password := password }, none)
  | .error e => (me, some e)

/-- What a call `m.toMachineInfo(me)` leaves behind: the returned pair
`(*mcm.MachineInfo, error)` as `result`, the record `me` points to after the
call, and the `PwdDecrypt` invocations made, oldest first. -/
structure Resolution where
  result : Except BizError MachineInfo
  me : Machine
  calls : List Call

/-- Lines 260-279 of `toMachineInfo`: fills the credential fields of `mi` from
the shared certificate or from the machine itself. -/
def resolveCredential (env : Env) (me : Machine) (mi : MachineInfo) : Resolution :=
  if env.UseAuthCert me then
    match env.authCertGetById (uint64 me.AuthCertId) with
    | none => ⟨.error (NewBiz "授权凭证信息已不存在，请重新关联"), me, []⟩
    | some ac =>
      let mi := mi.setAuthMethod ac.AuthMethod
      match env.certPwdDecrypt ac with
      | .error e => ⟨.error (NewBiz e), me, [Call.certPwdDecrypt ac]⟩
      | .ok decrypted =>
        let mi := mi.setPassword decrypted.Password
        let mi := mi.setPassphrase decrypted.Passphrase
        ⟨.ok mi, me, [Call.certPwdDecrypt ac]⟩
  else
    let mi := mi.setAuthMethod env.AuthCertAuthMethodPassword
    if me.Id ≠ 0 then
      match Machine.PwdDecrypt env me with
      | (me1, some e) => ⟨.error (NewBiz e), me1, [Call.machinePwdDecrypt me]⟩
      | (me1, none) => ⟨.ok (mi.setPassword me1.Password), me1, [Call.machinePwdDecrypt me]⟩
    else
      ⟨.ok (mi.setPassword me.Password), me, []⟩

/-- Lines 250-258 of `toMachineInfo`: the new descriptor with the fields copied
from the machine record. -/
def newMachineInfo (env : Env) (me : Machine) : MachineInfo :=
  MachineInfo.mk me.Id me.Name me.Ip me.Port me.Username
    (env.ListTagPathByResource me.Code) me.EnableRecorder me.Protocol 0 "" "" none

/-- Method `machineAppImpl.toMachineInfo` (machine.go 249-294).  The first
argument bounds the depth of the recursion through tunnel machines. -/
def toMachineInfo (env : Env) : Nat → Machine → Option Resolution
  | 0, _ => none
  | fuel + 1, me =>
    let mi : MachineInfo := newMachineInfo env me
    match resolveCredential env me mi with
    | ⟨.error e, me, calls⟩ => some ⟨.error e, me, calls⟩
    | ⟨.ok mi, me, calls⟩ =>
      if me.SshTunnelMachineId > 0 then
        match env.GetById (uint64 me.SshTunnelMachineId) with
        | none => some ⟨.error (NewBiz "隧道机器信息不存在"), me, calls⟩
        | some sshTunnelMe =>
          match toMachineInfo env fuel sshTunnelMe with
          | none => none
          | some ⟨.error e, _, tunnelCalls⟩ => some ⟨.error e, me, calls ++ tunnelCalls⟩
          | some ⟨.ok sshTunnelMi, _, tunnelCalls⟩ =>
            some ⟨.ok (mi.setSshTunnelMachine sshTunnelMi), me, calls ++ tunnelCalls⟩
      else
        some ⟨.ok mi, me, calls⟩

/-- Method `machineAppImpl.ToMachineInfoById` (machine.go 233-247). -/
def ToMachineInfoById (env : Env) (fuel : Nat) (machineId : Nat) :
    Option (Except BizError MachineInfo) :=
  match env.GetById machineId with
  | none => some (.error (NewBiz "机器信息不存在"))
  | some me =>
    if me.Status ≠ env.MachineStatusEnable ∧ me.Protocol = 1 then
      some (.error (NewBiz "该机器已被停用"))
    else
      match toMachineInfo env fuel me with
      | none => none
      | some r => some r.result

/-! ## Connection test -/

/-- Session handle `*mcm.Cli`. -/
structure Cli where
  handle : Nat
  deriving DecidableEq, Repr

/-- What a call `m.TestConn(me)` leaves behind: the returned error (`none` is
nil), the record `me` points to after the call, the `PwdDecrypt` invocations
made and the sessions closed. -/
structure TestConnResult where
  err : Option BizError
  me : Machine
  calls : List Call
  closed : List Cli

/-- Method `machineAppImpl.TestConn` (machine.go 132-144); `Conn mi` is
`mi.Conn()` of package `mcm`. -/
def TestConn (env : Env) (Conn : MachineInfo → Except BizError Cli) (fuel : Nat)
    (me : Machine) : Option TestConnResult :=
  let me := { me with Id := 0 }
  match toMachineInfo env fuel me with
  | none => none
  | some ⟨.error err, me, calls⟩ => some ⟨some err, me, calls, []⟩
  | some ⟨.ok mi, me, calls⟩ =>
    match Conn mi with
    | .error err => some ⟨some err, me, calls, []⟩
    | .ok cli => some ⟨none, me, calls, [cli]⟩

/-! ## Configuration changes -/

/-- Operation performed by a closure handed to `m.Tx`. -/
inductive TxOp where
  | Insert (me : Machine)
  | UpdateById (me : Machine)
  | DeleteById (id : Nat)
  | SaveResource (ResourceCode : Option String) (TagIds : List Nat)
  deriving DecidableEq, Repr

/-- Call that machine.go makes to a collaborator with an effect outside the
function: `mcm.DeleteCli(id)`, `m.UpdateById(ctx, me)`,
`global.EventBus.Publish(ctx, consts.DeleteMachineEventTopic, machine)` and
`m.Tx(ctx, f1, f2)` with the operations of its closures in order. -/
inductive Event where
  | DeleteCli (id : Nat)
  | UpdateById (me : Machine)
  | Publish (machine : Machine)
  | Tx (ops : List TxOp)
  deriving DecidableEq, Repr

/-- Repository side of the configuration operations.
* `GetBy cond` is `m.GetBy(cond)`: the record filled in, `none` on an error;
* `CountByCond cond` is `m.CountByCond(cond)`;
* `encrypt` is the encryption capability;
* `UpdateById me` and `Tx ops` give the error returned by `m.UpdateById` and
  `m.Tx` (`none` is nil). -/
structure Repo where
  GetBy : Machine → Option Machine
  CountByCond : Machine → Int
  encrypt : String → Except String String
  UpdateById : Machine → Option BizError
  Tx : List TxOp → Option BizError

/-- Modelled from the spec: `entity.Machine.PwdEncrypt` is not under src/.  The
embedded secret is "encrypted at rest" with the external encryption
capability; like `PwdDecrypt` the method works on its receiver. -/
def Machine.PwdEncrypt (repo : Repo) (me : Machine) : Machine × Option String :=
  match repo.encrypt me.Password with
  | .ok password => ({ me with Password := password }, none)
  | .error e => (me, some e)

/-- What a configuration operation leaves behind: the returned error, the
record `me` points to after the call (for `SaveMachine`) and the calls with an
outside effect, oldest first. -/
structure OpResult where
  err : Option BizError
  me : Machine
  events : List Event

/-- Method `machineAppImpl.SaveMachine` (machine.go 73-130).  `found` is the
record that `m.GetBy(oldMachine)` filled in, so `found.isSome` is `err == nil`.
The resource code of the update branch is `none` when `oldMachine` comes from
a `GetById` whose error was dropped. -/
def SaveMachine (env : Env) (repo : Repo) (me : Machine) (tagIds : List Nat) : OpResult :=
  let oldMachine : Machine :=
    { Machine.new with Ip := me.Ip, Port := me.Port, Username := me.Username,
                       SshTunnelMachineId := me.SshTunnelMachineId }
  let found := repo.GetBy oldMachine
  let oldMachine := found.getD oldMachine
  match Machine.PwdEncrypt repo me with
  | (me, some errEnc) => ⟨some (NewBiz errEnc), me, []⟩
  | (me, none) =>
    if me.Id = 0 then
      if found.isSome then
        ⟨some (NewBiz "该机器信息已存在"), me, []⟩
      else if repo.CountByCond { Machine.new with Code := me.Code } > 0 then
        ⟨some (NewBiz "该编码已存在"), me, []⟩
      else
        let me := { me with Status := env.MachineStatusEnable }
        let ops := [TxOp.Insert me, TxOp.SaveResource (some me.Code) tagIds]
        ⟨repo.Tx ops, me, [Event.Tx ops]⟩
    else if found.isSome ∧ oldMachine.Id ≠ me.Id then
      ⟨some (NewBiz "该机器信息已存在"), me, []⟩
    else
      let oldCode : Option String :=
        if oldMachine.Code = "" then (env.GetById me.Id).map Machine.Code
        else some oldMachine.Code
      let me := { me with Code := "" }
      let ops := [TxOp.UpdateById me, TxOp.SaveResource oldCode tagIds]
      ⟨repo.Tx ops, me, [Event.DeleteCli me.Id, Event.Tx ops]⟩

/-- Method `machineAppImpl.ChangeStatus` (machine.go 146-155). -/
def ChangeStatus (env : Env) (repo : Repo) (id : Nat) (status : Int) :
    Option BizError × List Event :=
  let evicted := if status = env.MachineStatusDisable then [Event.DeleteCli id] else []
  let machine := { Machine.new with Id := id, Status := status }
  (repo.UpdateById machine, evicted ++ [Event.UpdateById machine])

/-- Method `machineAppImpl.Delete` (machine.go 158-177). -/
def Delete (env : Env) (repo : Repo) (id : Nat) : Option BizError × List Event :=
  match env.GetById id with
  | none => (some (NewBiz "机器信息不存在"), [])
  | some machine =>
    let ops := [TxOp.DeleteById id, TxOp.SaveResource (some machine.Code) []]
    (repo.Tx ops, [Event.DeleteCli id, Event.Publish machine, Event.Tx ops])

/-! ## Statistics sweep -/

/-- Value carried by a Go panic: one that implements the interface `error`, or
any other value (a string, say). -/
inductive PanicValue where
  | error (msg : String)
  | other (v : String)
  deriving DecidableEq, Repr

/-- Result of a call: it returns, it panics, or it does not return (with the
fuel given it runs on; a recursion without end runs until the runtime stops the
process). -/
inductive Outcome (α : Type) where
  | ret (a : α)
  | panic (v : PanicValue)
  | noReturn

/-- Snapshot `*mcm.Stats`. -/
structure Stats where
  data : List String
  deriving DecidableEq, Repr

/-- Line written through package `logx`: the format string, the machine id it
is formatted with and, for `ErrorTrace`, the message of the error. -/
inductive LogEntry where
  | Debugf (format : String) (mid : Nat)
  | ErrorTrace (format : String) (mid : Nat) (err : String)
  deriving DecidableEq, Repr

/-- Modelled from the spec: `mcm.GetMachineCli` is not under src/.  What the
call does with the resolver it is handed (§4.3): it answers without calling it
("on cache hit: return the existing handle"), or it calls it for the id `mid`
and goes on with what the resolver returns ("on cache miss: call the supplied
resolver to build a descriptor, build a session via Session Factory, insert
into the cache, return it").  A resolver that does not return leaves the call
without a return too. -/
inductive Acquisition where
  | answer (r : Outcome (Except BizError Cli))
  | resolve (mid : Nat) (k : Except BizError MachineInfo → Outcome (Except BizError Cli))

/-- Connection manager behind the sweep.
* `GetMachineCli id` is `mcm.GetMachineCli(id, resolve)`, as far as it goes
  without the resolver;
* `GetAllStats cli` is `cli.GetAllStats()`, for the pointer `cli` that came
  with the result of `GetCli`: `none` is the nil pointer.  What collecting from
  a nil session does is not fixed here. -/
structure Mcm where
  GetMachineCli : Nat → Acquisition
  GetAllStats : Option Cli → Outcome Stats

/-- State the sweep works on: the status updates issued through
`m.UpdateById`, the store of `cache.SaveMachineStats` and the log. -/
structure World where
  events : List Event
  stats : Nat → Option Stats
  logs : List LogEntry

/-- Method `machineAppImpl.GetCli` (machine.go 187-191): the resolver handed to
`mcm.GetMachineCli` is `m.ToMachineInfoById`, and when that does not return
`GetCli` does not return either. -/
def GetCli (env : Env) (mcm : Mcm) (fuel : Nat) (machineId : Nat) :
    Outcome (Except BizError Cli) :=
  match mcm.GetMachineCli machineId with
  | .answer r => r
  | .resolve mid k =>
    match ToMachineInfoById env fuel mid with
    | none => .noReturn
    | some descriptor => k descriptor

/-- Function `cache.SaveMachineStats(mid, stats)`. -/
def SaveMachineStats (w : World) (mid : Nat) (stats : Stats) : World :=
  { w with stats := Function.update w.stats mid (some stats) }

/-- How a unit of the sweep ends: its goroutine returns, or a panic leaves it
unrecovered with value `v`, which ends the process, or a call in it does not
return and the goroutine is left where it was. -/
inductive UnitEnd where
  | returned (w : World)
  | crashed (w : World) (v : PanicValue)
  | unfinished (w : World)

/-- Body of the goroutine of `TimerUpdateStats` (machine.go 211-222) for the
machine id `mid`, started at time `now`: the state it reaches and how it ends.
After an error from `GetCli` the body goes on to line 221 with the `cli` that
came with the error, the nil pointer. -/
def sweepUnitBody (env : Env) (mcm : Mcm) (fuel now mid : Nat) (w : World) :
    World × Outcome Unit :=
  let w := { w with logs := w.logs ++ [LogEntry.Debugf "定时获取机器[id=%d]状态信息开始" mid] }
  match GetCli env mcm fuel mid with
  | .panic v => (w, .panic v)
  | .noReturn => (w, .noReturn)
  | .ret r =>
    let cli : Option Cli := r.toOption
    let w :=
      match r with
      | .error _ =>
        let updateMachine : Machine :=
          { Machine.new with Status := env.MachineStatusDisable, Id := mid,
                             UpdateTime := some now }
        { w with events := w.events ++ [Event.UpdateById updateMachine] }
      | .ok _ => w
    match mcm.GetAllStats cli with
    | .panic v => (w, .panic v)
    | .noReturn => (w, .noReturn)
    | .ret stats =>
      let w := SaveMachineStats w mid stats
      ({ w with logs := w.logs ++ [LogEntry.Debugf "定时获取机器[id=%d]状态信息结束" mid] },
        .ret ())

/-- Deferred function of the goroutine (machine.go 206-210): `recovered` is what
`recover()` returns.  The assertion `err.(error)` panics when the value does
not implement `error`. -/
def recoverHandler (mid : Nat) (w : World) : Option PanicValue → UnitEnd
  | none => .returned w
  | some (.error msg) =>
    .returned { w with logs := w.logs ++ [LogEntry.ErrorTrace "定时获取机器[id=%d]状态信息失败" mid msg] }
  | some (.other _) =>
    .crashed w (.error "interface conversion: value is not error")

/-- Goroutine launched by `TimerUpdateStats` for one machine (machine.go
205-223): the body, then the deferred function, which runs when the body
returns and when it panics. -/
def sweepUnit (env : Env) (mcm : Mcm) (fuel now mid : Nat) (w : World) : UnitEnd :=
  match sweepUnitBody env mcm fuel now mid w with
  | (w, .ret _) => recoverHandler mid w none
  | (w, .panic v) => recoverHandler mid w (some v)
  | (w, .noReturn) => .unfinished w

/-- State in which a unit ends. -/
def UnitEnd.world : UnitEnd → World
  | .returned w => w
  | .crashed w _ => w
  | .unfinished w => w

/-- Loop of machine.go 204-224 over machine ids.  The goroutines of `mids` run
one after the other, in the order of `mids`, each at the time `now mid`; a
goroutine that ends unrecovered or does not return stops the run, as the
process is then lost. -/
def runUnits (env : Env) (mcm : Mcm) (fuel : Nat) (now : Nat → Nat) :
    List Nat → World → UnitEnd
  | [], w => .returned w
  | mid :: rest, w =>
    match sweepUnit env mcm fuel (now mid) mid w with
    | .returned w => runUnits env mcm fuel now rest w
    | .crashed w v => .crashed w v
    | .unfinished w => .unfinished w

/-- Function that `machineAppImpl.TimerUpdateStats` schedules (machine.go
201-225), run once.  `ListByCond cond` is what
`m.GetRepo().ListByCond(cond, machineIds, "id")` puts in `machineIds`,
`MachineProtocolSsh` is the constant of package `entity`, and `schedule` is the
order in which the goroutines launched for the listed ids come to run. -/
def TimerUpdateStats (env : Env) (mcm : Mcm) (ListByCond : Machine → List Machine)
    (MachineProtocolSsh : Int) (schedule : List Nat → List Nat) (fuel : Nat)
    (now : Nat → Nat) (w : World) : UnitEnd :=
  let machineIds := ListByCond
    { Machine.new with Status := env.MachineStatusEnable, Protocol := MachineProtocolSsh }
  runUnits env mcm fuel now (schedule (machineIds.map Machine.Id)) w

/-! ## Predicates used in the statements -/

/-- The descriptor carries the id, name, ip, port, username, protocol and
recorder flag of the machine record `m`. -/
def MachineInfo.populatedFrom (mi : MachineInfo) (m : Machine) : Prop :=
  mi.Id = m.Id ∧ mi.Name = m.Name ∧ mi.Ip = m.Ip ∧ mi.Port = m.Port ∧
    mi.Username = m.Username ∧ mi.Protocol = m.Protocol ∧ mi.EnableRecorder = m.EnableRecorder

/-- The credential of `me` resolves: lines 260-279 end without an error. -/
def credentialResolves (env : Env) (me : Machine) : Bool :=
  (resolveCredential env me (newMachineInfo env me)).result.toBool

/-- The records `chain` are the tunnel machines below `m`, in order: each is the
record loaded for the positive `SshTunnelMachineId` of the one before, the last
one has no tunnel reference, and the credential of every hop resolves. -/
def isTunnelChain (env : Env) : Machine → List Machine → Bool
  | m, [] => decide (m.SshTunnelMachineId ≤ 0) && credentialResolves env m
  | m, t :: rest =>
    decide (m.SshTunnelMachineId > 0) && decide (env.GetById (uint64 m.SshTunnelMachineId) = some t)
      && credentialResolves env m && isTunnelChain env t rest

/-- The body of the unit of `mid` returns or panics with a value that
implements `error`: the session acquisition and the collection both return or
panic, and no panic carries any other value. -/
def unitIsRecovered (env : Env) (mcm : Mcm) (fuel mid : Nat) : Bool :=
  match GetCli env mcm fuel mid with
  | .ret r =>
    match mcm.GetAllStats r.toOption with
    | .ret _ => true
    | .panic (.error _) => true
    | .panic (.other _) => false
    | .noReturn => false
  | .panic (.error _) => true
  | .panic (.other _) => false
  | .noReturn => false

/-- The session acquisition of `mid` returns an error: `GetCli` returns, with
`err != nil`. -/
def acquisitionFails (env : Env) (mcm : Mcm) (fuel mid : Nat) : Bool :=
  match GetCli env mcm fuel mid with
  | .ret (.error _) => true
  | _ => false

/-- Snapshot that the unit of `mid` collects from the session it acquired:
`GetCli` returns a session and `GetAllStats` on it returns. -/
def unitSnapshot (env : Env) (mcm : Mcm) (fuel mid : Nat) : Option Stats :=
  match GetCli env mcm fuel mid with
  | .ret (.ok cli) =>
    match mcm.GetAllStats (some cli) with
    | .ret stats => some stats
    | _ => none
  | _ => none

/-- Status update that a unit issues for `mid` at time `now` (machine.go
215-219). -/
def disableUpdate (env : Env) (now mid : Nat) : Event :=
  Event.UpdateById { Machine.new with
    Status := env.MachineStatusDisable, Id := mid, UpdateTime := some now }

/-- Following the tunnel references from `me` stops within `n` hops: at a
machine without a tunnel reference, at a reference with no record, or at a hop
whose credential does not resolve. -/
def tunnelEndsWithin (env : Env) : Nat → Machine → Bool
  | 0, me => decide (me.SshTunnelMachineId ≤ 0) || !credentialResolves env me
  | n + 1, me =>
    decide (me.SshTunnelMachineId ≤ 0) || !credentialResolves env me ||
      match env.GetById (uint64 me.SshTunnelMachineId) with
      | none => true
      | some t => tunnelEndsWithin env n t

/-! ## Example store -/

/-- Machine record of the examples: enabled, protocol SSH, direct credential. -/
def exMachine (id : Nat) (name : String) (tunnel : Int) : Machine :=
  { Id := id, UpdateTime := none, Code := name, Name := name, Protocol := 1, Ip := "10.0.0.1",
    Port := 22, Username := "root", Password := "enc:secret", AuthCertId := 0, Status := 1,
    SshTunnelMachineId := tunnel, EnableRecorder := 1 }

/-- Store of the examples.  Machine 1 has no tunnel, 2 tunnels through 1 and 3
through 2; 4 is a disabled SSH machine and 5 tunnels through it; 6 refers to
the shared certificate 7 and 8 to the certificate 9, which does not exist; 10
and 11 tunnel through each other. -/
def exGetById (id : Nat) : Option Machine :=
  if id = 1 then some (exMachine 1 "a" 0)
  else if id = 2 then some (exMachine 2 "b" 1)
  else if id = 3 then some (exMachine 3 "c" 2)
  else if id = 4 then some { exMachine 4 "d" 0 with Status := -1 }
  else if id = 5 then some (exMachine 5 "e" 4)
  else if id = 6 then some { exMachine 6 "f" 0 with AuthCertId := 7 }
  else if id = 8 then some { exMachine 8 "h" 0 with AuthCertId := 9 }
  else if id = 10 then some (exMachine 10 "x" 11)
  else if id = 11 then some (exMachine 11 "y" 10)
  else none

/-- Environment of the examples: a machine uses a shared certificate when its
`AuthCertId` is positive, and the decryption capability knows one ciphertext. -/
def exEnv : Env :=
  { GetById := exGetById
    authCertGetById := fun id =>
      if id = 7 then some { Id := 7, AuthMethod := 2, Password := "enc:key", Passphrase := "enc:phrase" }
      else none
    UseAuthCert := fun me => decide (me.AuthCertId > 0)
    decrypt := fun s => if s = "enc:secret" then .ok "secret" else .error "解密失败"
    certPwdDecrypt := fun ac =>
      if ac.Password = "enc:key" then .ok { ac with Password := "key", Passphrase := "phrase" }
      else .error "解密失败"
    ListTagPathByResource := fun code => [code]
    MachineStatusEnable := 1
    MachineStatusDisable := -1
    AuthCertAuthMethodPassword := 1 }

/-- Machine 6 of the example store. -/
def exMachine6 : Machine := { exMachine 6 "f" 0 with AuthCertId := 7 }

/-- What resolving machine 1 of the example store leaves behind. -/
def exResolution1 : Resolution :=
  ⟨.ok (MachineInfo.mk 1 "a" "10.0.0.1" 22 "root" ["a"] 1 1 1 "secret" "" none),
    { exMachine 1 "a" 0 with Password := "secret" },
    [Call.machinePwdDecrypt (exMachine 1 "a" 0)]⟩

/-- What resolving machine 6 of the example store leaves behind. -/
def exResolution6 : Resolution :=
  ⟨.ok (MachineInfo.mk 6 "f" "10.0.0.1" 22 "root" ["f"] 1 1 2 "key" "phrase" none),
    exMachine6, [Call.certPwdDecrypt ⟨7, 2, "enc:key", "enc:phrase"⟩]⟩

/-- What testing the connection of machine 1 of the example store leaves
behind. -/
def exTestConn1 : TestConnResult :=
  ⟨none, { exMachine 1 "a" 0 with Id := 0 }, [], [⟨0⟩]⟩

/-- Session factory of the examples: every descriptor connects. -/
def exConn (mi : MachineInfo) : Except BizError Cli := .ok ⟨mi.Id⟩

/-- Repository of the examples: no record matches a condition, every write
succeeds. -/
def exRepo : Repo :=
  { GetBy := fun _ => none
    CountByCond := fun _ => 0
    encrypt := fun s => .ok s
    UpdateById := fun _ => none
    Tx := fun _ => none }

/-- Connection manager of the examples: machine 3 is unreachable, the
acquisition for machine 12 panics with a string, and every other id has its
descriptor resolved and gets a session when the resolver gives one.  Here
collecting from a nil session panics with a run-time error. -/
def exMcm : Mcm :=
  { GetMachineCli := fun id =>
      if id = 3 then .answer (.ret (.error (NewBiz "connection refused")))
      else if id = 12 then .answer (.panic (.other "boom"))
      else .resolve id (fun descriptor =>
        match descriptor with
        | .ok _ => .ret (.ok ⟨id⟩)
        | .error e => .ret (.error e))
    GetAllStats := fun cli =>
      match cli with
      | none => .panic (.error "runtime error: invalid memory address or nil pointer dereference")
      | some _ => .ret ⟨["uptime 3 days"]⟩ }

/-- Connection manager in which machine 3 is unreachable and collecting from a
nil session returns an empty snapshot. -/
def exTolerantMcm : Mcm :=
  { GetMachineCli := fun id =>
      if id = 3 then .answer (.ret (.error (NewBiz "connection refused")))
      else .answer (.ret (.ok ⟨id⟩))
    GetAllStats := fun cli =>
      match cli with
      | none => .ret ⟨[]⟩
      | some _ => .ret ⟨["uptime 3 days"]⟩ }

/-- State in which the last successful poll of machine 3 is stored. -/
def exPolledWorld : World :=
  { events := [], stats := Function.update (fun _ => none) 3 (some ⟨["uptime 2 days"]⟩),
    logs := [] }

/-- State of the examples: nothing issued, stored or logged. -/
def exWorld : World := { events := [], stats := fun _ => none, logs := [] }

/-- Listing of the examples: machines 1 and 13, both enabled and SSH, of
which the ones that match the status and protocol of the condition are
returned. -/
def exListByCond (cond : Machine) : List Machine :=
  [exMachine 1 "a" 0, exMachine 13 "m" 0].filter
    (fun ma => decide (ma.Status = cond.Status ∧ ma.Protocol = cond.Protocol))

/-- Connection manager of the sweep example: the acquisition for machine 13
panics with a value that implements `error`, and every other machine has a
cached session. -/
def exSweepMcm : Mcm :=
  { GetMachineCli := fun id =>
      if id = 13 then .answer (.panic (.error "runtime error: index out of range"))
      else .answer (.ret (.ok ⟨id⟩))
    GetAllStats := fun cli =>
      match cli with
      | none => .panic (.error "runtime error: invalid memory address or nil pointer dereference")
      | some _ => .ret ⟨["uptime 3 days"]⟩ }

/-- State in which the sweep of the examples ends when the unit of machine 13
runs first. -/
def exSweepEnd : World :=
  { events := []
    stats := Function.update (fun _ => none) 1 (some ⟨["uptime 3 days"]⟩)
    logs :=
      [LogEntry.Debugf "定时获取机器[id=%d]状态信息开始" 13,
       LogEntry.ErrorTrace "定时获取机器[id=%d]状态信息失败" 13
         "runtime error: index out of range",
       LogEntry.Debugf "定时获取机器[id=%d]状态信息开始" 1,
       LogEntry.Debugf "定时获取机器[id=%d]状态信息结束" 1] }

end Mayfly

/-! ## Credential resolution, step by step -/

namespace Mayfly

theorem resolveCredential_me_eq (env : Env) (me : Machine) (mi : MachineInfo) :
    (resolveCredential env me mi).me =
      { me with Password := (resolveCredential env me mi).me.Password } := by
  unfold resolveCredential Machine.PwdDecrypt
  split
  · split
    · rfl
    · split <;> rfl
  · split
    · cases env.decrypt me.Password <;> rfl
    · rfl

theorem resolveCredential_tunnelId (env : Env) (me : Machine) (mi : MachineInfo) :
    (resolveCredential env me mi).me.SshTunnelMachineId = me.SshTunnelMachineId := by
  rw [resolveCredential_me_eq]

theorem toMachineInfo_credential_error (env : Env) (fuel : Nat) (me : Machine) (e : BizError)
    (h : (resolveCredential env me (newMachineInfo env me)).result = .error e) :
    toMachineInfo env (fuel + 1) me =
      some ⟨.error e, (resolveCredential env me (newMachineInfo env me)).me,
        (resolveCredential env me (newMachineInfo env me)).calls⟩ := by
  rcases hrc : resolveCredential env me (newMachineInfo env me) with ⟨res, me1, calls⟩
  rw [hrc] at h
  simp only at h
  subst h
  simp [toMachineInfo, hrc]

theorem toMachineInfo_no_tunnel (env : Env) (fuel : Nat) (me : Machine) (mi : MachineInfo)
    (h : (resolveCredential env me (newMachineInfo env me)).result = .ok mi)
    (ht : me.SshTunnelMachineId ≤ 0) :
    toMachineInfo env (fuel + 1) me =
      some ⟨.ok mi, (resolveCredential env me (newMachineInfo env me)).me,
        (resolveCredential env me (newMachineInfo env me)).calls⟩ := by
  have hid := resolveCredential_tunnelId env me (newMachineInfo env me)
  rcases hrc : resolveCredential env me (newMachineInfo env me) with ⟨res, me1, calls⟩
  rw [hrc] at h hid
  simp only at h hid
  subst h
  have : ¬ me1.SshTunnelMachineId > 0 := by omega
  simp [toMachineInfo, hrc, this]

theorem toMachineInfo_tunnel_missing (env : Env) (fuel : Nat) (me : Machine) (mi : MachineInfo)
    (h : (resolveCredential env me (newMachineInfo env me)).result = .ok mi)
    (ht : me.SshTunnelMachineId > 0)
    (hg : env.GetById (uint64 me.SshTunnelMachineId) = none) :
    toMachineInfo env (fuel + 1) me =
      some ⟨.error (NewBiz "隧道机器信息不存在"),
        (resolveCredential env me (newMachineInfo env me)).me,
        (resolveCredential env me (newMachineInfo env me)).calls⟩ := by
  have hid := resolveCredential_tunnelId env me (newMachineInfo env me)
  rcases hrc : resolveCredential env me (newMachineInfo env me) with ⟨res, me1, calls⟩
  rw [hrc] at h hid
  simp only at h hid
  subst h
  have : me1.SshTunnelMachineId > 0 := by omega
  simp [toMachineInfo, hrc, hid, ht, hg]

theorem toMachineInfo_tunnel (env : Env) (fuel : Nat) (me t : Machine) (mi : MachineInfo)
    (h : (resolveCredential env me (newMachineInfo env me)).result = .ok mi)
    (ht : me.SshTunnelMachineId > 0)
    (hg : env.GetById (uint64 me.SshTunnelMachineId) = some t) :
    toMachineInfo env (fuel + 1) me =
      match toMachineInfo env fuel t with
      | none => none
      | some ⟨.error e, _, tunnelCalls⟩ =>
        some ⟨.error e, (resolveCredential env me (newMachineInfo env me)).me,
          (resolveCredential env me (newMachineInfo env me)).calls ++ tunnelCalls⟩
      | some ⟨.ok sshTunnelMi, _, tunnelCalls⟩ =>
        some ⟨.ok (mi.setSshTunnelMachine sshTunnelMi),
          (resolveCredential env me (newMachineInfo env me)).me,
          (resolveCredential env me (newMachineInfo env me)).calls ++ tunnelCalls⟩ := by
  have hid := resolveCredential_tunnelId env me (newMachineInfo env me)
  rcases hrc : resolveCredential env me (newMachineInfo env me) with ⟨res, me1, calls⟩
  rw [hrc] at h hid
  simp only at h hid
  subst h
  have : me1.SshTunnelMachineId > 0 := by omega
  simp [toMachineInfo, hrc, hid, ht, hg]

end Mayfly

/-! ## Shape of a resolved descriptor -/

namespace Mayfly

theorem resolveCredential_ok_shape (env : Env) (me : Machine) (mi mi1 : MachineInfo)
    (h : (resolveCredential env me mi).result = .ok mi1) :
    ∃ a p q, mi1 = MachineInfo.mk mi.Id mi.Name mi.Ip mi.Port mi.Username mi.TagPath
      mi.EnableRecorder mi.Protocol a p q mi.SshTunnelMachine := by
  cases mi with
  | mk i n a p u t r pr am pw pp tn =>
    unfold resolveCredential Machine.PwdDecrypt at h
    split at h
    · split at h
      · simp at h
      · split at h
        · simp at h
        · simp only [Except.ok.injEq] at h
          exact ⟨_, _, _, h.symm⟩
    · split at h
      · cases hd : env.decrypt me.Password <;> rw [hd] at h <;> simp only at h
        · simp at h
        · simp only [Except.ok.injEq] at h
          exact ⟨_, _, _, h.symm⟩
      · simp only [Except.ok.injEq] at h
        exact ⟨_, _, _, h.symm⟩

theorem credentialResolves_ok (env : Env) (me : Machine) (h : credentialResolves env me = true) :
    ∃ a p q, (resolveCredential env me (newMachineInfo env me)).result =
      .ok (MachineInfo.mk me.Id me.Name me.Ip me.Port me.Username
        (env.ListTagPathByResource me.Code) me.EnableRecorder me.Protocol a p q none) := by
  unfold credentialResolves at h
  cases hr : (resolveCredential env me (newMachineInfo env me)).result with
  | error e => rw [hr] at h; simp [Except.toBool] at h
  | ok mi1 =>
    obtain ⟨a, p, q, hshape⟩ := resolveCredential_ok_shape env me _ mi1 hr
    exact ⟨a, p, q, by rw [hshape]; rfl⟩

theorem credentialResolves_false (env : Env) (me : Machine)
    (h : credentialResolves env me = false) :
    ∃ e, (resolveCredential env me (newMachineInfo env me)).result = .error e := by
  unfold credentialResolves at h
  cases hr : (resolveCredential env me (newMachineInfo env me)).result with
  | error e => exact ⟨e, rfl⟩
  | ok mi1 => rw [hr] at h; simp [Except.toBool] at h

/-- C1.  When the tunnel references of `m0` form the finite chain
`m0 -> chain[0] -> ... -> chain[N-1]` (each record is the one loaded for the
positive `SshTunnelMachineId` of the one before, the last has no tunnel
reference, every credential resolves), `toMachineInfo m0` returns, with any
fuel above `N`, a descriptor with exactly `N` nested `SshTunnelMachine` levels
whose level `k` carries the id, name, ip, port, username, protocol and recorder
flag of the `k`-th machine; for `N = 0` the nested tunnel field is nil. -/
theorem toMachineInfo_tunnel_chain (env : Env) (m0 : Machine) (chain : List Machine)
    (fuel : Nat) (hchain : isTunnelChain env m0 chain = true) (hfuel : chain.length < fuel) :
    ∃ r mi, toMachineInfo env fuel m0 = some r ∧ r.result = .ok mi ∧
      mi.depth = chain.length ∧
      (∀ k mach, (m0 :: chain)[k]? = some mach →
        ∃ lk, mi.level k = some lk ∧ lk.populatedFrom mach) ∧
      (chain = [] → mi.SshTunnelMachine = none) := by
  induction chain generalizing m0 fuel with
  | nil =>
    obtain ⟨f, rfl⟩ : ∃ f, fuel = f + 1 := ⟨fuel - 1, by simp at hfuel; omega⟩
    simp only [isTunnelChain, Bool.and_eq_true, decide_eq_true_eq] at hchain
    obtain ⟨a, p, q, hok⟩ := credentialResolves_ok env m0 hchain.2
    refine ⟨_, _, toMachineInfo_no_tunnel env f m0 _ hok hchain.1, rfl, rfl, ?_, fun _ => rfl⟩
    intro k mach hk
    cases k with
    | zero =>
      simp only [List.getElem?_cons_zero, Option.some.injEq] at hk
      subst hk
      exact ⟨_, rfl, rfl, rfl, rfl, rfl, rfl, rfl, rfl⟩
    | succ k => simp at hk
  | cons t rest ih =>
    obtain ⟨f, rfl⟩ : ∃ f, fuel = f + 1 := ⟨fuel - 1, by simp at hfuel; omega⟩
    simp only [isTunnelChain, Bool.and_eq_true, decide_eq_true_eq] at hchain
    obtain ⟨⟨⟨hpos, hget⟩, hcred⟩, hrest⟩ := hchain
    obtain ⟨a, p, q, hok⟩ := credentialResolves_ok env m0 hcred
    have hlen : rest.length < f := by simp at hfuel; omega
    obtain ⟨rt, tmi, hrt, hres, hdepth, hlevels, _⟩ := ih t f hrest hlen
    obtain ⟨res, met, callst⟩ := rt
    simp only at hres
    subst hres
    have hstep := toMachineInfo_tunnel env f m0 t _ hok hpos hget
    rw [hrt] at hstep
    refine ⟨_, _, hstep, rfl, ?_, ?_, fun h => by simp at h⟩
    · simp [MachineInfo.setSshTunnelMachine, MachineInfo.depth, hdepth]
    · intro k mach hk
      cases k with
      | zero =>
        simp only [List.getElem?_cons_zero, Option.some.injEq] at hk
        subst hk
        exact ⟨_, rfl, rfl, rfl, rfl, rfl, rfl, rfl, rfl⟩
      | succ k =>
        simp only [List.getElem?_cons_succ] at hk
        obtain ⟨lk, hlk, hpop⟩ := hlevels k mach hk
        exact ⟨lk, by simpa [MachineInfo.setSshTunnelMachine, MachineInfo.level] using hlk, hpop⟩

/-- Witness of C1: machine 3 of the example store tunnels through 2, which
tunnels through 1. -/
theorem toMachineInfo_tunnel_chain_witness :
    isTunnelChain exEnv (exMachine 3 "c" 2) [exMachine 2 "b" 1, exMachine 1 "a" 0] = true ∧
    ∃ r mi, toMachineInfo exEnv 3 (exMachine 3 "c" 2) = some r ∧ r.result = .ok mi ∧
      mi.depth = 2 ∧
      (∀ k mach, (exMachine 3 "c" 2 :: [exMachine 2 "b" 1, exMachine 1 "a" 0])[k]? = some mach →
        ∃ lk, mi.level k = some lk ∧ lk.populatedFrom mach) ∧
      ([exMachine 2 "b" 1, exMachine 1 "a" 0] = [] → mi.SshTunnelMachine = none) :=
  ⟨by decide, toMachineInfo_tunnel_chain exEnv (exMachine 3 "c" 2)
    [exMachine 2 "b" 1, exMachine 1 "a" 0] 3 (by decide) (by decide)⟩

end Mayfly

/-! ## Missing certificate, termination and cycles -/

namespace Mayfly

/-- C2.  A machine that uses a shared certificate (`UseAuthCert()` is true)
whose certificate cannot be loaded makes `toMachineInfo` return the not-found
error: no `PwdDecrypt` is invoked, no descriptor is returned and the record is
left as it was. -/
theorem toMachineInfo_auth_cert_missing (env : Env) (fuel : Nat) (me : Machine)
    (huse : env.UseAuthCert me = true)
    (hmiss : env.authCertGetById (uint64 me.AuthCertId) = none) :
    toMachineInfo env (fuel + 1) me =
      some ⟨.error (NewBiz "授权凭证信息已不存在，请重新关联"), me, []⟩ := by
  have hrc : resolveCredential env me (newMachineInfo env me) =
      ⟨.error (NewBiz "授权凭证信息已不存在，请重新关联"), me, []⟩ := by
    simp [resolveCredential, huse, hmiss]
  have h := toMachineInfo_credential_error env fuel me _ (by rw [hrc])
  rw [h, hrc]

/-- Witness of C2: machine 8 of the example store refers to the certificate 9,
which does not exist. -/
theorem toMachineInfo_auth_cert_missing_witness :
    toMachineInfo exEnv 1 { exMachine 8 "h" 0 with AuthCertId := 9 } =
      some ⟨.error (NewBiz "授权凭证信息已不存在，请重新关联"),
        { exMachine 8 "h" 0 with AuthCertId := 9 }, []⟩ :=
  toMachineInfo_auth_cert_missing exEnv 0 { exMachine 8 "h" 0 with AuthCertId := 9 }
    (by decide) (by decide)

theorem toMachineInfo_never_returns (env : Env) (S : Machine → Prop)
    (hS : ∀ m, S m → m.SshTunnelMachineId > 0 ∧ credentialResolves env m = true ∧
      ∃ t, env.GetById (uint64 m.SshTunnelMachineId) = some t ∧ S t) :
    ∀ fuel m, S m → toMachineInfo env fuel m = none := by
  intro fuel
  induction fuel with
  | zero => intro m _; rfl
  | succ f ih =>
    intro m hm
    obtain ⟨hpos, hcred, t, hget, ht⟩ := hS m hm
    obtain ⟨a, p, q, hok⟩ := credentialResolves_ok env m hcred
    rw [toMachineInfo_tunnel env f m t _ hok hpos hget, ih t ht]

/-- Counterexample to C10: machines 10 and 11 of the example store tunnel
through each other, and resolving machine 10 returns neither a cycle error nor
anything else, whatever the fuel. -/
theorem toMachineInfo_cycle_never_returns :
    ¬ ∃ fuel r, toMachineInfo exEnv fuel (exMachine 10 "x" 11) = some r := by
  rintro ⟨fuel, r, h⟩
  have hnone := toMachineInfo_never_returns exEnv
    (fun m => m = exMachine 10 "x" 11 ∨ m = exMachine 11 "y" 10)
    (by
      rintro m (rfl | rfl)
      · exact ⟨by decide, by decide, exMachine 11 "y" 10, by decide, Or.inr rfl⟩
      · exact ⟨by decide, by decide, exMachine 10 "x" 11, by decide, Or.inl rfl⟩)
    fuel (exMachine 10 "x" 11) (Or.inl rfl)
  rw [hnone] at h
  exact Option.noConfusion h

/-- C10, amended.  When following the tunnel references from `me` stops within
`n` hops (at the first machine without a tunnel reference, at a reference with
no record, or at a credential that does not resolve), `toMachineInfo me`
returns, and returns the same with every fuel above `n`. -/
theorem toMachineInfo_terminates (env : Env) (n : Nat) (me : Machine)
    (hend : tunnelEndsWithin env n me = true) :
    ∃ r, ∀ fuel, n < fuel → toMachineInfo env fuel me = some r := by
  induction n generalizing me with
  | zero =>
    cases hcred : credentialResolves env me with
    | false =>
      obtain ⟨e, he⟩ := credentialResolves_false env me hcred
      refine ⟨⟨.error e, (resolveCredential env me (newMachineInfo env me)).me,
        (resolveCredential env me (newMachineInfo env me)).calls⟩, fun fuel hf => ?_⟩
      obtain ⟨f, rfl⟩ : ∃ f, fuel = f + 1 := ⟨fuel - 1, by omega⟩
      exact toMachineInfo_credential_error env f me e he
    | true =>
      obtain ⟨mi1, hok⟩ : ∃ mi1, (resolveCredential env me (newMachineInfo env me)).result =
          .ok mi1 := by
        obtain ⟨a, p, q, hok⟩ := credentialResolves_ok env me hcred
        exact ⟨_, hok⟩
      have hle : me.SshTunnelMachineId ≤ 0 := by
        simpa [tunnelEndsWithin, hcred] using hend
      refine ⟨⟨.ok mi1, (resolveCredential env me (newMachineInfo env me)).me,
        (resolveCredential env me (newMachineInfo env me)).calls⟩, fun fuel hf => ?_⟩
      obtain ⟨f, rfl⟩ : ∃ f, fuel = f + 1 := ⟨fuel - 1, by omega⟩
      exact toMachineInfo_no_tunnel env f me _ hok hle
  | succ n ih =>
    cases hcred : credentialResolves env me with
    | false =>
      obtain ⟨e, he⟩ := credentialResolves_false env me hcred
      refine ⟨⟨.error e, (resolveCredential env me (newMachineInfo env me)).me,
        (resolveCredential env me (newMachineInfo env me)).calls⟩, fun fuel hf => ?_⟩
      obtain ⟨f, rfl⟩ : ∃ f, fuel = f + 1 := ⟨fuel - 1, by omega⟩
      exact toMachineInfo_credential_error env f me e he
    | true =>
      obtain ⟨mi1, hok⟩ : ∃ mi1, (resolveCredential env me (newMachineInfo env me)).result =
          .ok mi1 := by
        obtain ⟨a, p, q, hok⟩ := credentialResolves_ok env me hcred
        exact ⟨_, hok⟩
      by_cases hle : me.SshTunnelMachineId ≤ 0
      · refine ⟨⟨.ok mi1, (resolveCredential env me (newMachineInfo env me)).me,
          (resolveCredential env me (newMachineInfo env me)).calls⟩, fun fuel hf => ?_⟩
        obtain ⟨f, rfl⟩ : ∃ f, fuel = f + 1 := ⟨fuel - 1, by omega⟩
        exact toMachineInfo_no_tunnel env f me _ hok hle
      · have hpos : me.SshTunnelMachineId > 0 := by omega
        cases hget : env.GetById (uint64 me.SshTunnelMachineId) with
        | none =>
          refine ⟨⟨.error (NewBiz "隧道机器信息不存在"),
            (resolveCredential env me (newMachineInfo env me)).me,
            (resolveCredential env me (newMachineInfo env me)).calls⟩, fun fuel hf => ?_⟩
          obtain ⟨f, rfl⟩ : ∃ f, fuel = f + 1 := ⟨fuel - 1, by omega⟩
          exact toMachineInfo_tunnel_missing env f me _ hok hpos hget
        | some t =>
          have ht : tunnelEndsWithin env n t = true := by
            simpa [tunnelEndsWithin, hcred, hle, hget] using hend
          obtain ⟨⟨res, met, callst⟩, hrt⟩ := ih t ht
          cases res with
          | error e =>
            refine ⟨⟨.error e, (resolveCredential env me (newMachineInfo env me)).me,
              (resolveCredential env me (newMachineInfo env me)).calls ++ callst⟩,
              fun fuel hf => ?_⟩
            obtain ⟨f, rfl⟩ : ∃ f, fuel = f + 1 := ⟨fuel - 1, by omega⟩
            rw [toMachineInfo_tunnel env f me t _ hok hpos hget, hrt f (by omega)]
          | ok tmi =>
            refine ⟨⟨.ok (mi1.setSshTunnelMachine tmi),
              (resolveCredential env me (newMachineInfo env me)).me,
              (resolveCredential env me (newMachineInfo env me)).calls ++ callst⟩,
              fun fuel hf => ?_⟩
            obtain ⟨f, rfl⟩ : ∃ f, fuel = f + 1 := ⟨fuel - 1, by omega⟩
            rw [toMachineInfo_tunnel env f me t _ hok hpos hget, hrt f (by omega)]

/-- Witness of C10, amended: the references of machine 3 of the example
store stop within two hops. -/
theorem toMachineInfo_terminates_witness :
    tunnelEndsWithin exEnv 2 (exMachine 3 "c" 2) = true ∧
    ∃ r, ∀ fuel, 2 < fuel → toMachineInfo exEnv fuel (exMachine 3 "c" 2) = some r :=
  ⟨by decide, toMachineInfo_terminates exEnv 2 (exMachine 3 "c" 2) (by decide)⟩

end Mayfly

/-! ## What one call of `toMachineInfo` returns -/

namespace Mayfly

theorem setSshTunnelMachine_credential (mi tn : MachineInfo) :
    (mi.setSshTunnelMachine tn).AuthMethod = mi.AuthMethod ∧
    (mi.setSshTunnelMachine tn).Password = mi.Password ∧
    (mi.setSshTunnelMachine tn).Passphrase = mi.Passphrase ∧
    (mi.setSshTunnelMachine tn).SshTunnelMachine = some tn := by
  cases mi
  exact ⟨rfl, rfl, rfl, rfl⟩

theorem toMachineInfo_inv (env : Env) (fuel : Nat) (me : Machine) (r : Resolution)
    (h : toMachineInfo env (fuel + 1) me = some r) :
    r.me = (resolveCredential env me (newMachineInfo env me)).me ∧
    (∃ tail, r.calls = (resolveCredential env me (newMachineInfo env me)).calls ++ tail ∧
      (tail = [] ∨ ∃ t rt, toMachineInfo env fuel t = some rt ∧ tail = rt.calls)) ∧
    (∀ e, r.result = .error e →
      (resolveCredential env me (newMachineInfo env me)).result = .error e ∨
      e = NewBiz "隧道机器信息不存在" ∨
      ∃ t rt, toMachineInfo env fuel t = some rt ∧ rt.result = .error e) ∧
    (∀ mi, r.result = .ok mi →
      ∃ mi1, (resolveCredential env me (newMachineInfo env me)).result = .ok mi1 ∧
        mi.AuthMethod = mi1.AuthMethod ∧ mi.Password = mi1.Password ∧
        mi.Passphrase = mi1.Passphrase) := by
  cases hres : (resolveCredential env me (newMachineInfo env me)).result with
  | error e =>
    rw [toMachineInfo_credential_error env fuel me e hres] at h
    cases h
    exact ⟨rfl, ⟨[], by simp, Or.inl rfl⟩, fun e1 he => Or.inl he, fun mi hmi => by simp at hmi⟩
  | ok mi1 =>
    by_cases hle : me.SshTunnelMachineId ≤ 0
    · rw [toMachineInfo_no_tunnel env fuel me mi1 hres hle] at h
      cases h
      exact ⟨rfl, ⟨[], by simp, Or.inl rfl⟩, fun e1 he => by simp at he,
        fun mi hmi => ⟨mi, hmi, rfl, rfl, rfl⟩⟩
    · have hpos : me.SshTunnelMachineId > 0 := by omega
      cases hget : env.GetById (uint64 me.SshTunnelMachineId) with
      | none =>
        rw [toMachineInfo_tunnel_missing env fuel me mi1 hres hpos hget] at h
        cases h
        exact ⟨rfl, ⟨[], by simp, Or.inl rfl⟩,
          fun e1 he => Or.inr (Or.inl (by simpa using he.symm)),
          fun mi hmi => by simp at hmi⟩
      | some t =>
        rw [toMachineInfo_tunnel env fuel me t mi1 hres hpos hget] at h
        cases hrt : toMachineInfo env fuel t with
        | none => rw [hrt] at h; simp at h
        | some rt =>
          obtain ⟨rest, met, callst⟩ := rt
          rw [hrt] at h
          cases rest with
          | error e =>
            simp only [Option.some.injEq] at h
            subst h
            exact ⟨rfl, ⟨callst, rfl, Or.inr ⟨t, _, hrt, rfl⟩⟩,
              fun e1 he => Or.inr (Or.inr ⟨t, _, hrt, by simpa using he⟩),
              fun mi hmi => by simp at hmi⟩
          | ok tmi =>
            simp only [Option.some.injEq] at h
            subst h
            refine ⟨rfl, ⟨callst, rfl, Or.inr ⟨t, _, hrt, rfl⟩⟩,
              fun e1 he => by simp at he, fun mi hmi => ?_⟩
            simp only [Except.ok.injEq] at hmi
            subst hmi
            have hs := setSshTunnelMachine_credential mi1 tmi
            exact ⟨mi1, rfl, hs.1, hs.2.1, hs.2.2.1⟩

theorem resolveCredential_error_msg (env : Env) (me : Machine) (mi : MachineInfo) (e : BizError)
    (h : (resolveCredential env me mi).result = .error e) :
    e = NewBiz "授权凭证信息已不存在，请重新关联" ∨
      (∃ s, env.decrypt s = .error e.msg) ∨ ∃ ac, env.certPwdDecrypt ac = .error e.msg := by
  unfold resolveCredential Machine.PwdDecrypt at h
  split at h
  · split at h
    · simp only [Except.error.injEq] at h
      exact Or.inl h.symm
    · rename_i ac hac
      split at h
      · rename_i msg hmsg
        simp only [Except.error.injEq] at h
        subst h
        exact Or.inr (Or.inr ⟨ac, hmsg⟩)
      · simp at h
  · split at h
    · cases hd : env.decrypt me.Password with
      | error msg =>
        rw [hd] at h
        simp only [Except.error.injEq] at h
        subst h
        exact Or.inr (Or.inl ⟨_, hd⟩)
      | ok p => rw [hd] at h; simp at h
    · simp at h

theorem toMachineInfo_error_msg (env : Env) :
    ∀ (fuel : Nat) (me : Machine) (r : Resolution) (e : BizError),
      toMachineInfo env fuel me = some r → r.result = .error e →
      e = NewBiz "授权凭证信息已不存在，请重新关联" ∨ e = NewBiz "隧道机器信息不存在" ∨
        (∃ s, env.decrypt s = .error e.msg) ∨ ∃ ac, env.certPwdDecrypt ac = .error e.msg := by
  intro fuel
  induction fuel with
  | zero => intro me r e h; simp [toMachineInfo] at h
  | succ f ih =>
    intro me r e h he
    obtain ⟨_, _, herr, _⟩ := toMachineInfo_inv env f me r h
    rcases herr e he with hc | ht | ⟨t, rt, hrt, hrte⟩
    · rcases resolveCredential_error_msg env me _ e hc with h1 | h2 | h3
      · exact Or.inl h1
      · exact Or.inr (Or.inr (Or.inl h2))
      · exact Or.inr (Or.inr (Or.inr h3))
    · exact Or.inr (Or.inl ht)
    · exact ih t rt e hrt hrte

theorem toMachineInfo_calls_id (env : Env) :
    ∀ (fuel : Nat) (me : Machine) (r : Resolution), toMachineInfo env fuel me = some r →
      ∀ m, Call.machinePwdDecrypt m ∈ r.calls → m.Id ≠ 0 := by
  intro fuel
  induction fuel with
  | zero => intro me r h; simp [toMachineInfo] at h
  | succ f ih =>
    intro me r h m hm
    obtain ⟨_, ⟨tail, hcalls, htail⟩, _, _⟩ := toMachineInfo_inv env f me r h
    rw [hcalls, List.mem_append] at hm
    rcases hm with hm | hm
    · unfold resolveCredential Machine.PwdDecrypt at hm
      split at hm
      · split at hm
        · simp at hm
        · split at hm <;> simp at hm
      · split at hm
        · rename_i hid
          cases hd : env.decrypt me.Password <;> rw [hd] at hm <;> simp at hm <;>
            subst hm <;> exact hid
        · simp at hm
    · rcases htail with rfl | ⟨t, rt, hrt, rfl⟩
      · simp at hm
      · exact ih t rt hrt m hm

end Mayfly

/-! ## The status gate of `ToMachineInfoById` -/

namespace Mayfly

/-- C3.  For a machine id whose record `me` exists, and a decryption capability
that never reports the text of the "machine disabled" error itself,
`ToMachineInfoById` returns the error "该机器已被停用" exactly when the status of
`me` is not enabled and its protocol is 1 (SSH).  The gate looks at the
requested machine only: when `me` passes it and tunnels through a record
`hop` that is a disabled SSH machine and resolves to `hmi`, the call returns a
descriptor whose nested tunnel descriptor is `hmi`. -/
theorem ToMachineInfoById_disabled_gate (env : Env) (machineId : Nat) (me : Machine)
    (hget : env.GetById machineId = some me)
    (hdec : ∀ s, env.decrypt s ≠ .error "该机器已被停用")
    (hcert : ∀ ac, env.certPwdDecrypt ac ≠ .error "该机器已被停用") :
    (∀ fuel, ToMachineInfoById env fuel machineId = some (.error (NewBiz "该机器已被停用")) ↔
      (me.Status ≠ env.MachineStatusEnable ∧ me.Protocol = 1)) ∧
    (∀ fuel hop rh hmi,
      ¬ (me.Status ≠ env.MachineStatusEnable ∧ me.Protocol = 1) →
      me.SshTunnelMachineId > 0 →
      env.GetById (uint64 me.SshTunnelMachineId) = some hop →
      hop.Status ≠ env.MachineStatusEnable → hop.Protocol = 1 →
      credentialResolves env me = true →
      toMachineInfo env fuel hop = some rh → rh.result = .ok hmi →
      ∃ mi, ToMachineInfoById env (fuel + 1) machineId = some (.ok mi) ∧
        mi.SshTunnelMachine = some hmi) := by
  constructor
  · intro fuel
    constructor
    · intro h
      by_contra hgate
      simp only [ToMachineInfoById, hget, hgate, if_false] at h
      cases hr : toMachineInfo env fuel me with
      | none => rw [hr] at h; simp at h
      | some r =>
        rw [hr] at h
        simp only [Option.some.injEq] at h
        rcases toMachineInfo_error_msg env fuel me r _ hr h with h1 | h2 | ⟨s, hs⟩ | ⟨ac, hac⟩
        · exact absurd h1 (by decide)
        · exact absurd h2 (by decide)
        · exact hdec s hs
        · exact hcert ac hac
    · intro hgate
      simp [ToMachineInfoById, hget, hgate]
  · intro fuel hop rh hmi hgate hpos hhop _ _ hcred hrh hok
    obtain ⟨a, p, q, hmi1⟩ := credentialResolves_ok env me hcred
    obtain ⟨resh, meh, callsh⟩ := rh
    simp only at hok
    subst hok
    have hstep := toMachineInfo_tunnel env fuel me hop _ hmi1 hpos hhop
    rw [hrh] at hstep
    refine ⟨(MachineInfo.mk me.Id me.Name me.Ip me.Port me.Username
      (env.ListTagPathByResource me.Code) me.EnableRecorder me.Protocol a p q
      none).setSshTunnelMachine hmi, ?_, (setSshTunnelMachine_credential _ hmi).2.2.2⟩
    simp only [ToMachineInfoById, hget, hgate, if_false, hstep]

/-- Witness of C3: in the example store machine 4 is a disabled SSH machine and
machine 5, which is enabled, tunnels through it. -/
theorem ToMachineInfoById_disabled_gate_witness :
    (∀ fuel, ToMachineInfoById exEnv fuel 4 = some (.error (NewBiz "该机器已被停用"))) ∧
    ∃ mi, ToMachineInfoById exEnv 2 5 = some (.ok mi) ∧
      mi.SshTunnelMachine = some (MachineInfo.mk 4 "d" "10.0.0.1" 22 "root" ["d"] 1 1 1
        "secret" "" none) :=
  ⟨fun fuel => ((ToMachineInfoById_disabled_gate exEnv 4 { exMachine 4 "d" 0 with Status := -1 }
      (by decide)
      (fun s => by simp only [exEnv]; split <;> simp)
      (fun ac => by simp only [exEnv]; split <;> simp)).1 fuel).2 (by decide),
   (ToMachineInfoById_disabled_gate exEnv 5 (exMachine 5 "e" 4) (by decide)
      (fun s => by simp only [exEnv]; split <;> simp)
      (fun ac => by simp only [exEnv]; split <;> simp)).2 1
      { exMachine 4 "d" 0 with Status := -1 }
      ⟨.ok (MachineInfo.mk 4 "d" "10.0.0.1" 22 "root" ["d"] 1 1 1 "secret" "" none),
        { exMachine 4 "d" 0 with Status := -1, Password := "secret" },
        [Call.machinePwdDecrypt { exMachine 4 "d" 0 with Status := -1 }]⟩ _
      (by decide) (by decide) (by decide) (by decide) (by decide) (by decide) rfl rfl⟩

end Mayfly

/-! ## Credentials of the descriptor and the record left behind -/

namespace Mayfly

theorem resolveCredential_direct (env : Env) (me : Machine) (mi mi1 : MachineInfo)
    (huse : env.UseAuthCert me = false)
    (h : (resolveCredential env me mi).result = .ok mi1) :
    mi1.AuthMethod = env.AuthCertAuthMethodPassword ∧
    (me.Id ≠ 0 → env.decrypt me.Password = .ok mi1.Password) ∧
    (me.Id = 0 → mi1.Password = me.Password) := by
  cases mi with
  | mk i n a p u t r pr am pw pp tn =>
    unfold resolveCredential Machine.PwdDecrypt at h
    simp only [huse, Bool.false_eq_true, if_false] at h
    split at h
    · rename_i hid
      cases hd : env.decrypt me.Password with
      | error msg => rw [hd] at h; simp at h
      | ok plain =>
        rw [hd] at h
        simp only [Except.ok.injEq] at h
        subst h
        exact ⟨rfl, fun _ => rfl, fun h0 => absurd h0 hid⟩
    · rename_i hid
      simp only [Except.ok.injEq] at h
      subst h
      exact ⟨rfl, fun h0 => absurd h0 hid, fun _ => rfl⟩

theorem resolveCredential_cert (env : Env) (me : Machine) (mi mi1 : MachineInfo)
    (huse : env.UseAuthCert me = true)
    (h : (resolveCredential env me mi).result = .ok mi1) :
    ∃ ac ac1, env.authCertGetById (uint64 me.AuthCertId) = some ac ∧
      env.certPwdDecrypt ac = .ok ac1 ∧ mi1.AuthMethod = ac.AuthMethod ∧
      mi1.Password = ac1.Password ∧ mi1.Passphrase = ac1.Passphrase := by
  cases mi with
  | mk i n a p u t r pr am pw pp tn =>
    unfold resolveCredential at h
    simp only [huse, if_true] at h
    split at h
    · simp at h
    · rename_i ac hac
      split at h
      · simp at h
      · rename_i ac1 hac1
        simp only [Except.ok.injEq] at h
        subst h
        exact ⟨ac, ac1, hac, hac1, rfl, rfl, rfl⟩

theorem resolveCredential_me_unchanged (env : Env) (me : Machine) (mi : MachineInfo)
    (h : env.UseAuthCert me = true ∨ me.Id = 0) :
    (resolveCredential env me mi).me = me := by
  unfold resolveCredential
  split
  · split
    · rfl
    · split <;> rfl
  · rename_i huse
    rcases h with h | h
    · exact absurd h huse
    · simp [h]

theorem resolveCredential_me_direct (env : Env) (me : Machine) (mi : MachineInfo)
    (huse : env.UseAuthCert me = false) (hid : me.Id ≠ 0) :
    (resolveCredential env me mi).me = (Machine.PwdDecrypt env me).1 := by
  unfold resolveCredential
  simp only [huse, Bool.false_eq_true, if_false, hid, ne_eq, not_false_eq_true, if_true]
  cases hd : Machine.PwdDecrypt env me with
  | mk me1 err => cases err <;> rfl

theorem TestConn_inv (env : Env) (Conn : MachineInfo → Except BizError Cli) (fuel : Nat)
    (me : Machine) (tr : TestConnResult) (h : TestConn env Conn fuel me = some tr) :
    ∃ r, toMachineInfo env fuel { me with Id := 0 } = some r ∧ tr.me = r.me ∧
      tr.calls = r.calls := by
  unfold TestConn at h
  cases hr : toMachineInfo env fuel { me with Id := 0 } with
  | none => simp only [hr] at h; simp at h
  | some r =>
    obtain ⟨res, me1, calls⟩ := r
    simp only [hr] at h
    cases res with
    | error e =>
      simp only [Option.some.injEq] at h
      subst h
      exact ⟨_, rfl, rfl, rfl⟩
    | ok mi =>
      simp only at h
      cases hc : Conn mi with
      | error e =>
        rw [hc] at h
        simp only [Option.some.injEq] at h
        subst h
        exact ⟨_, rfl, rfl, rfl⟩
      | ok cli =>
        rw [hc] at h
        simp only [Option.some.injEq] at h
        subst h
        exact ⟨_, rfl, rfl, rfl⟩

/-- C4.  A successful `toMachineInfo me` returns a descriptor `mi` such that:
for a direct credential (`UseAuthCert()` false) the auth method is
`AuthCertAuthMethodPassword`, the password is the decryption of
`me.Password` when `me.Id` is not 0, and is `me.Password` as given, with
`PwdDecrypt` never invoked on `me`, when `me.Id` is 0; for a shared
credential the auth method is the one of the loaded certificate and the
password and passphrase are those of the certificate after its `PwdDecrypt`.
`TestConn` resolves the record with its id forced to 0, so it never invokes
`PwdDecrypt` on it. -/
theorem toMachineInfo_credential (env : Env) (fuel : Nat) (me : Machine) :
    (∀ r mi, toMachineInfo env fuel me = some r → r.result = .ok mi →
      (env.UseAuthCert me = false →
        mi.AuthMethod = env.AuthCertAuthMethodPassword ∧
        (me.Id ≠ 0 → env.decrypt me.Password = .ok mi.Password) ∧
        (me.Id = 0 → mi.Password = me.Password ∧ Call.machinePwdDecrypt me ∉ r.calls)) ∧
      (env.UseAuthCert me = true →
        ∃ ac ac1, env.authCertGetById (uint64 me.AuthCertId) = some ac ∧
          env.certPwdDecrypt ac = .ok ac1 ∧ mi.AuthMethod = ac.AuthMethod ∧
          mi.Password = ac1.Password ∧ mi.Passphrase = ac1.Passphrase)) ∧
    (∀ Conn tr, TestConn env Conn fuel me = some tr →
      Call.machinePwdDecrypt { me with Id := 0 } ∉ tr.calls ∧ tr.me.Password = me.Password) := by
  constructor
  · intro r mi h hok
    cases fuel with
    | zero => simp [toMachineInfo] at h
    | succ f =>
      obtain ⟨_, _, _, hmi⟩ := toMachineInfo_inv env f me r h
      obtain ⟨mi1, hrc, ham, hpw, hpp⟩ := hmi mi hok
      constructor
      · intro huse
        obtain ⟨h1, h2, h3⟩ := resolveCredential_direct env me _ mi1 huse hrc
        refine ⟨ham.trans h1, fun hid => by rw [hpw]; exact h2 hid, fun hid => ⟨hpw.trans (h3 hid), ?_⟩⟩
        intro hmem
        exact toMachineInfo_calls_id env (f + 1) me r h me hmem hid
      · intro huse
        obtain ⟨ac, ac1, hac, hac1, h1, h2, h3⟩ := resolveCredential_cert env me _ mi1 huse hrc
        exact ⟨ac, ac1, hac, hac1, ham.trans h1, hpw.trans h2, hpp.trans h3⟩
  · intro Conn tr h
    obtain ⟨r, hr, hme, hcalls⟩ := TestConn_inv env Conn fuel me tr h
    cases fuel with
    | zero => simp [toMachineInfo] at hr
    | succ f =>
      obtain ⟨hrme, _, _, _⟩ := toMachineInfo_inv env f _ r hr
      constructor
      · rw [hcalls]
        intro hmem
        exact toMachineInfo_calls_id env (f + 1) _ r hr _ hmem rfl
      · rw [hme, hrme, resolveCredential_me_unchanged env _ _ (Or.inr rfl)]

/-- Witness of C4: machine 1 of the example store has a direct credential and a
non-zero id, machine 6 refers to the shared certificate 7, and the connection
test of machine 1 runs with id 0. -/
theorem toMachineInfo_credential_witness :
    (toMachineInfo exEnv 1 (exMachine 1 "a" 0) = some exResolution1 ∧
      exEnv.decrypt (exMachine 1 "a" 0).Password = .ok "secret") ∧
    (toMachineInfo exEnv 1 exMachine6 = some exResolution6 ∧
      ∃ ac ac1, exEnv.authCertGetById (uint64 exMachine6.AuthCertId) = some ac ∧
        exEnv.certPwdDecrypt ac = .ok ac1 ∧ (2 : Int) = ac.AuthMethod ∧
        "key" = ac1.Password ∧ "phrase" = ac1.Passphrase) ∧
    (TestConn exEnv exConn 1 (exMachine 1 "a" 0) = some exTestConn1 ∧
      Call.machinePwdDecrypt { exMachine 1 "a" 0 with Id := 0 } ∉ exTestConn1.calls ∧
      exTestConn1.me.Password = (exMachine 1 "a" 0).Password) :=
  ⟨⟨rfl, (((toMachineInfo_credential exEnv 1 (exMachine 1 "a" 0)).1 exResolution1 _ rfl rfl).1
      (by decide)).2.1 (by decide)⟩,
   ⟨rfl, ((toMachineInfo_credential exEnv 1 exMachine6).1 exResolution6 _ rfl rfl).2
      (by decide)⟩,
   ⟨rfl, (toMachineInfo_credential exEnv 1 (exMachine 1 "a" 0)).2 exConn exTestConn1 rfl⟩⟩

/-- Counterexample to C5: `TestConn` leaves the id of machine 1 of the example
store at 0 instead of 1, and `toMachineInfo` leaves the plaintext in the
`Password` of the record it was given. -/
theorem resolution_changes_record :
    (TestConn exEnv exConn 1 (exMachine 1 "a" 0) = some exTestConn1 ∧
      exTestConn1.me.Id ≠ (exMachine 1 "a" 0).Id) ∧
    (toMachineInfo exEnv 1 (exMachine 1 "a" 0) = some exResolution1 ∧
      exResolution1.me.Password ≠ (exMachine 1 "a" 0).Password) :=
  ⟨⟨rfl, by decide⟩, ⟨rfl, by decide⟩⟩

/-- C5, amended.  `toMachineInfo me` leaves every field of `me` other than
`Password` as it was; it leaves `Password` too when `me` uses a shared
certificate or has id 0, and otherwise leaves the record as its own
`PwdDecrypt` does.  `TestConn me` sets the id to 0 and leaves every other
field, the stored secret included, as it was. -/
theorem resolution_frame (env : Env) (fuel : Nat) (me : Machine) :
    (∀ r, toMachineInfo env fuel me = some r →
      r.me = { me with Password := r.me.Password } ∧
      (env.UseAuthCert me = true ∨ me.Id = 0 → r.me = me) ∧
      (env.UseAuthCert me = false → me.Id ≠ 0 → r.me = (Machine.PwdDecrypt env me).1)) ∧
    (∀ Conn tr, TestConn env Conn fuel me = some tr → tr.me = { me with Id := 0 }) := by
  constructor
  · intro r h
    cases fuel with
    | zero => simp [toMachineInfo] at h
    | succ f =>
      obtain ⟨hme, _, _, _⟩ := toMachineInfo_inv env f me r h
      rw [hme]
      exact ⟨resolveCredential_me_eq env me _, resolveCredential_me_unchanged env me _,
        resolveCredential_me_direct env me _⟩
  · intro Conn tr h
    obtain ⟨r, hr, hme, _⟩ := TestConn_inv env Conn fuel me tr h
    cases fuel with
    | zero => simp [toMachineInfo] at hr
    | succ f =>
      obtain ⟨hrme, _, _, _⟩ := toMachineInfo_inv env f _ r hr
      rw [hme, hrme, resolveCredential_me_unchanged env _ _ (Or.inr rfl)]

/-- Witness of C5, amended: machine 6 of the example store uses a shared
certificate and comes back unchanged; the connection test of machine 1
changes its id only. -/
theorem resolution_frame_witness :
    (toMachineInfo exEnv 1 exMachine6 = some exResolution6 ∧ exResolution6.me = exMachine6) ∧
    (TestConn exEnv exConn 1 (exMachine 1 "a" 0) = some exTestConn1 ∧
      exTestConn1.me = { exMachine 1 "a" 0 with Id := 0 }) :=
  ⟨⟨rfl, ((resolution_frame exEnv 1 exMachine6).1 exResolution6 rfl).2.1 (Or.inl (by decide))⟩,
   ⟨rfl, (resolution_frame exEnv 1 (exMachine 1 "a" 0)).2 exConn exTestConn1 rfl⟩⟩

end Mayfly

/-! ## The unit of the statistics sweep -/

namespace Mayfly

/-- C6.  In the sweep unit of machine id `mid`: when `GetCli` returns an error,
the unit issues exactly one status update, `UpdateById` with `Id = mid` and
`Status = MachineStatusDisable`, and none for any other machine; when `GetCli`
returns a session, the unit issues no status update at all. -/
theorem sweepUnit_status_update (env : Env) (mcm : Mcm) (fuel now mid : Nat) (w : World) :
    (∀ e, GetCli env mcm fuel mid = .ret (.error e) →
      (sweepUnit env mcm fuel now mid w).world.events =
        w.events ++ [Event.UpdateById { Machine.new with
          Status := env.MachineStatusDisable, Id := mid, UpdateTime := some now }]) ∧
    (∀ cli, GetCli env mcm fuel mid = .ret (.ok cli) →
      (sweepUnit env mcm fuel now mid w).world.events = w.events) := by
  constructor
  · intro e h
    simp only [sweepUnit, sweepUnitBody, h, Except.toOption]
    cases mcm.GetAllStats none with
    | ret st => simp [recoverHandler, UnitEnd.world, SaveMachineStats]
    | panic v => cases v <;> simp [recoverHandler, UnitEnd.world]
    | noReturn => simp [UnitEnd.world]
  · intro cli h
    simp only [sweepUnit, sweepUnitBody, h, Except.toOption]
    cases mcm.GetAllStats (some cli) with
    | ret st => simp [recoverHandler, UnitEnd.world, SaveMachineStats]
    | panic v => cases v <;> simp [recoverHandler, UnitEnd.world]
    | noReturn => simp [UnitEnd.world]

/-- Witness of C6: in the example connection manager machine 3 is unreachable
and machine 1 connects. -/
theorem sweepUnit_status_update_witness :
    (GetCli exEnv exMcm 1 3 = .ret (.error (NewBiz "connection refused")) ∧
      (sweepUnit exEnv exMcm 1 99 3 exWorld).world.events =
        exWorld.events ++ [Event.UpdateById { Machine.new with
          Status := exEnv.MachineStatusDisable, Id := 3, UpdateTime := some 99 }]) ∧
    (GetCli exEnv exMcm 1 1 = .ret (.ok ⟨1⟩) ∧
      (sweepUnit exEnv exMcm 1 99 1 exWorld).world.events = exWorld.events) :=
  ⟨⟨rfl, (sweepUnit_status_update exEnv exMcm 1 99 3 exWorld).1 _ rfl⟩,
   ⟨rfl, (sweepUnit_status_update exEnv exMcm 1 99 1 exWorld).2 _ rfl⟩⟩

/-- C7, at the failing input: the last successful snapshot of machine 3 is
stored, the acquisition of its session returns an error, and collecting from
the nil session returns an empty snapshot.  The unit goes on to line 221
after the error branch and stores that snapshot over the last successful
one. -/
theorem sweepUnit_failed_poll_overwrites :
    GetCli exEnv exTolerantMcm 1 3 = .ret (.error (NewBiz "connection refused")) ∧
    exPolledWorld.stats 3 = some ⟨["uptime 2 days"]⟩ ∧
    (sweepUnit exEnv exTolerantMcm 1 99 3 exPolledWorld).world.stats 3 = some ⟨[]⟩ :=
  ⟨rfl, by decide, by decide⟩

/-- C8, at the failing input: the acquisition for machine 12 panics with the
string "boom"; the deferred function recovers it, its assertion `err.(error)`
panics in turn, and the unit ends with that panic unrecovered instead of
returning. -/
theorem sweepUnit_string_panic_not_recovered :
    GetCli exEnv exMcm 1 12 = .panic (.other "boom") ∧
    sweepUnit exEnv exMcm 1 99 12 exWorld =
      .crashed { exWorld with logs := [LogEntry.Debugf "定时获取机器[id=%d]状态信息开始" 12] }
        (.error "interface conversion: value is not error") ∧
    (∀ mid w v, recoverHandler mid w (some (.other v)) =
      .crashed w (.error "interface conversion: value is not error")) ∧
    (∀ mid w msg, recoverHandler mid w (some (.error msg)) =
      .returned { w with logs :=
        w.logs ++ [LogEntry.ErrorTrace "定时获取机器[id=%d]状态信息失败" mid msg] }) :=
  ⟨rfl, rfl, fun _ _ _ => rfl, fun _ _ _ => rfl⟩

/-! ## Eviction of cached sessions -/

/-- C9.  `SaveMachine` on an existing record (`Id != 0`) either stops before
the persistence update with no call made, or calls `DeleteCli(Id)` and then
`Tx` with the update of that record; `SaveMachine` of a new record (`Id == 0`)
evicts nothing.  `ChangeStatus` to the disabled status calls `DeleteCli(id)`
and then `UpdateById`; to any other status it calls `UpdateById` only.
`Delete` of an existing record calls `DeleteCli(id)` before the deleting
transaction. -/
theorem config_change_evicts (env : Env) (repo : Repo) :
    (∀ me tagIds, me.Id ≠ 0 →
      (SaveMachine env repo me tagIds).events = [] ∨
      ∃ m oldCode, m.Id = me.Id ∧
        (SaveMachine env repo me tagIds).events =
          [Event.DeleteCli me.Id,
            Event.Tx [TxOp.UpdateById m, TxOp.SaveResource oldCode tagIds]]) ∧
    (∀ me tagIds id, me.Id = 0 →
      Event.DeleteCli id ∉ (SaveMachine env repo me tagIds).events) ∧
    (∀ id status, status = env.MachineStatusDisable →
      (ChangeStatus env repo id status).2 =
        [Event.DeleteCli id, Event.UpdateById { Machine.new with Id := id, Status := status }]) ∧
    (∀ id status, status ≠ env.MachineStatusDisable →
      (ChangeStatus env repo id status).2 =
        [Event.UpdateById { Machine.new with Id := id, Status := status }]) ∧
    (∀ id machine, env.GetById id = some machine →
      (Delete env repo id).2 =
        [Event.DeleteCli id, Event.Publish machine,
          Event.Tx [TxOp.DeleteById id, TxOp.SaveResource (some machine.Code) []]]) := by
  refine ⟨?_, ?_, ?_, ?_, ?_⟩
  · intro me tagIds hid
    unfold SaveMachine Machine.PwdEncrypt
    cases repo.encrypt me.Password with
    | error e => exact Or.inl rfl
    | ok password =>
      simp only [hid, if_false]
      split
      · exact Or.inl rfl
      · refine Or.inr ⟨_, _, ?_, rfl⟩
        rfl
  · intro me tagIds id hid
    unfold SaveMachine Machine.PwdEncrypt
    cases repo.encrypt me.Password with
    | error e => simp
    | ok password =>
      simp only [hid, if_true]
      split
      · simp
      · split <;> simp
  · intro id status h
    simp [ChangeStatus, h]
  · intro id status h
    simp [ChangeStatus, h]
  · intro id machine h
    simp [Delete, h]

/-- Witness of C9: machine 1 of the example store is saved, disabled and
deleted; a new record is saved and machine 1 is enabled. -/
theorem config_change_evicts_witness :
    ((exMachine 1 "a" 0).Id ≠ 0 ∧
      ((SaveMachine exEnv exRepo (exMachine 1 "a" 0) [3]).events = [] ∨
        ∃ m oldCode, m.Id = (exMachine 1 "a" 0).Id ∧
          (SaveMachine exEnv exRepo (exMachine 1 "a" 0) [3]).events =
            [Event.DeleteCli (exMachine 1 "a" 0).Id,
              Event.Tx [TxOp.UpdateById m, TxOp.SaveResource oldCode [3]]])) ∧
    Event.DeleteCli 1 ∉ (SaveMachine exEnv exRepo (exMachine 0 "a" 0) [3]).events ∧
    (ChangeStatus exEnv exRepo 1 (-1)).2 =
      [Event.DeleteCli 1, Event.UpdateById { Machine.new with Id := 1, Status := -1 }] ∧
    (ChangeStatus exEnv exRepo 1 1).2 =
      [Event.UpdateById { Machine.new with Id := 1, Status := 1 }] ∧
    (Delete exEnv exRepo 1).2 =
      [Event.DeleteCli 1, Event.Publish (exMachine 1 "a" 0),
        Event.Tx [TxOp.DeleteById 1, TxOp.SaveResource (some (exMachine 1 "a" 0).Code) []]] :=
  ⟨⟨by decide, (config_change_evicts exEnv exRepo).1 (exMachine 1 "a" 0) [3] (by decide)⟩,
   (config_change_evicts exEnv exRepo).2.1 (exMachine 0 "a" 0) [3] 1 rfl,
   (config_change_evicts exEnv exRepo).2.2.1 1 (-1) rfl,
   (config_change_evicts exEnv exRepo).2.2.2.1 1 1 (by decide),
   (config_change_evicts exEnv exRepo).2.2.2.2 1 (exMachine 1 "a" 0) rfl⟩

end Mayfly

/-! ## The sweep over the listed machines -/

namespace Mayfly

theorem sweepUnit_of_recovered (env : Env) (mcm : Mcm) (fuel now mid : Nat) (w : World)
    (h : unitIsRecovered env mcm fuel mid = true) :
    ∃ w1, sweepUnit env mcm fuel now mid w = .returned w1 ∧
      w1.events = w.events ++
        (if acquisitionFails env mcm fuel mid then [disableUpdate env now mid] else []) ∧
      (∀ st, unitSnapshot env mcm fuel mid = some st → w1.stats mid = some st) ∧
      (∀ j, j ≠ mid → w1.stats j = w.stats j) := by
  unfold unitIsRecovered at h
  unfold sweepUnit sweepUnitBody acquisitionFails unitSnapshot disableUpdate
  cases hg : GetCli env mcm fuel mid with
  | noReturn => rw [hg] at h; simp at h
  | panic v =>
    rw [hg] at h
    cases v with
    | error msg => exact ⟨_, rfl, by simp, by simp, fun _ _ => rfl⟩
    | other s => simp at h
  | ret r =>
    rw [hg] at h
    cases r with
    | error e =>
      simp only [Except.toOption] at h ⊢
      cases hs : mcm.GetAllStats none with
      | noReturn => rw [hs] at h; simp at h
      | ret st =>
        refine ⟨_, rfl, by simp [SaveMachineStats], by simp, ?_⟩
        intro j hj
        simp [SaveMachineStats, Function.update_noteq hj]
      | panic v =>
        rw [hs] at h
        cases v with
        | error msg => exact ⟨_, rfl, by simp, by simp, fun _ _ => rfl⟩
        | other s => simp at h
    | ok cli =>
      simp only [Except.toOption] at h ⊢
      cases hs : mcm.GetAllStats (some cli) with
      | noReturn => rw [hs] at h; simp at h
      | ret st =>
        refine ⟨_, rfl, by simp [SaveMachineStats], ?_, ?_⟩
        · intro st1 hst
          simp only [Option.some.injEq] at hst
          subst hst
          simp [SaveMachineStats]
        · intro j hj
          simp [SaveMachineStats, Function.update_noteq hj]
      | panic v =>
        rw [hs] at h
        cases v with
        | error msg => exact ⟨_, rfl, by simp, by simp, fun _ _ => rfl⟩
        | other s => simp at h

theorem runUnits_of_recovered (env : Env) (mcm : Mcm) (fuel : Nat) (now : Nat → Nat)
    (mids : List Nat) :
    ∀ w : World, (∀ mid ∈ mids, unitIsRecovered env mcm fuel mid = true) →
    ∃ w1, runUnits env mcm fuel now mids w = .returned w1 ∧
      w1.events = w.events ++
        (mids.filter (acquisitionFails env mcm fuel)).map
          (fun mid => disableUpdate env (now mid) mid) ∧
      (∀ mid ∈ mids, ∀ st, unitSnapshot env mcm fuel mid = some st →
        w1.stats mid = some st) ∧
      (∀ j, j ∉ mids → w1.stats j = w.stats j) := by
  induction mids with
  | nil =>
    intro w _
    exact ⟨w, rfl, by simp, by simp, fun _ _ => rfl⟩
  | cons mid rest ih =>
    intro w hall
    obtain ⟨w0, hunit, hev0, hst0, hkeep0⟩ :=
      sweepUnit_of_recovered env mcm fuel (now mid) mid w (hall mid (List.mem_cons_self _ _))
    obtain ⟨w1, hrun, hev1, hst1, hkeep1⟩ :=
      ih w0 (fun m hm => hall m (List.mem_cons_of_mem _ hm))
    refine ⟨w1, ?_, ?_, ?_, ?_⟩
    · simp only [runUnits, hunit]
      exact hrun
    · rw [hev1, hev0]
      by_cases hf : acquisitionFails env mcm fuel mid = true
      · simp [List.filter_cons, hf]
      · simp [List.filter_cons, hf]
    · intro j hj st hsnap
      by_cases hjr : j ∈ rest
      · exact hst1 j hjr st hsnap
      · have hjm : j = mid := by
          rcases List.mem_cons.1 hj with h | h
          · exact h
          · exact absurd h hjr
        subst hjm
        rw [hkeep1 j hjr]
        exact hst0 st hsnap
    · intro j hj
      have hjr : j ∉ rest := fun h => hj (List.mem_cons_of_mem _ h)
      have hjm : j ≠ mid := fun h => hj (by rw [h]; exact List.mem_cons_self _ _)
      rw [hkeep1 j hjr, hkeep0 j hjm]

theorem ToMachineInfoById_tunnel_cycle (fuel : Nat) : ToMachineInfoById exEnv fuel 10 = none := by
  have hnone := toMachineInfo_never_returns exEnv
    (fun m => m = exMachine 10 "x" 11 ∨ m = exMachine 11 "y" 10)
    (by
      rintro m (rfl | rfl)
      · exact ⟨by decide, by decide, exMachine 11 "y" 10, by decide, Or.inr rfl⟩
      · exact ⟨by decide, by decide, exMachine 10 "x" 11, by decide, Or.inl rfl⟩)
    fuel (exMachine 10 "x" 11) (Or.inl rfl)
  have hget : exEnv.GetById 10 = some (exMachine 10 "x" 11) := by decide
  have hgate : ¬ ((exMachine 10 "x" 11).Status ≠ exEnv.MachineStatusEnable ∧
      (exMachine 10 "x" 11).Protocol = 1) := by decide
  simp only [ToMachineInfoById, hget, hgate, if_false, hnone]

theorem sweepUnit_tunnel_cycle_unfinished (fuel now : Nat) (w : World) :
    GetCli exEnv exMcm fuel 10 = .noReturn ∧
    unitIsRecovered exEnv exMcm fuel 10 = false ∧
    sweepUnit exEnv exMcm fuel now 10 w = .unfinished
      { w with logs := w.logs ++ [LogEntry.Debugf "定时获取机器[id=%d]状态信息开始" 10] } := by
  have hplan : exMcm.GetMachineCli 10 = .resolve 10 (fun descriptor =>
      match descriptor with
      | .ok _ => .ret (.ok ⟨10⟩)
      | .error e => .ret (.error e)) := rfl
  have hg : GetCli exEnv exMcm fuel 10 = .noReturn := by
    simp only [GetCli, hplan, ToMachineInfoById_tunnel_cycle]
  refine ⟨hg, ?_, ?_⟩
  · simp only [unitIsRecovered, hg]
  · simp only [sweepUnit, sweepUnitBody, hg]

/-- Counterexample to C11: in the sweep of the examples the session
acquisition of machine 13 panics.  The panic is recovered and the sweep
returns, machine 1 has its snapshot stored, but no status update is issued,
whichever unit runs first: the status of machine 13 is not persisted as
disabled. -/
theorem sweep_fault_in_acquisition_not_disabled :
    GetCli exEnv exSweepMcm 1 13 = .panic (.error "runtime error: index out of range") ∧
    TimerUpdateStats exEnv exSweepMcm exListByCond 1 List.reverse 1 (fun _ => 99) exWorld =
      .returned exSweepEnd ∧
    exSweepEnd.stats 1 = some ⟨["uptime 3 days"]⟩ ∧
    exSweepEnd.events = [] ∧
    (TimerUpdateStats exEnv exSweepMcm exListByCond 1 id 1 (fun _ => 99) exWorld).world.events
      = [] :=
  ⟨rfl, rfl, rfl, rfl, rfl⟩

/-- C11, amended.  In a sweep over the listed enabled SSH machines, whatever
the order in which their units run, if in every unit the session acquisition
and the collection return or panic with a value that implements `error`, then
every fault is recovered and the sweep returns; each listed machine whose
`GetCli` returns a session and whose `GetAllStats` returns has its snapshot
stored, whatever happens in the other units; and the status updates issued
are exactly the disabling updates of the listed machines whose `GetCli`
returned an error. -/
theorem TimerUpdateStats_isolated (env : Env) (mcm : Mcm) (ListByCond : Machine → List Machine)
    (MachineProtocolSsh : Int) (schedule : List Nat → List Nat) (fuel : Nat) (now : Nat → Nat)
    (w : World)
    (hsched : ∀ l, (schedule l).Perm l)
    (hrec : ∀ ma ∈ ListByCond { Machine.new with
        Status := env.MachineStatusEnable, Protocol := MachineProtocolSsh },
      unitIsRecovered env mcm fuel ma.Id = true) :
    ∃ w1, TimerUpdateStats env mcm ListByCond MachineProtocolSsh schedule fuel now w =
        .returned w1 ∧
      (∀ ma ∈ ListByCond { Machine.new with
          Status := env.MachineStatusEnable, Protocol := MachineProtocolSsh },
        ∀ st, unitSnapshot env mcm fuel ma.Id = some st → w1.stats ma.Id = some st) ∧
      (∀ ev, ev ∈ w1.events ↔ ev ∈ w.events ∨
        ∃ ma ∈ ListByCond { Machine.new with
            Status := env.MachineStatusEnable, Protocol := MachineProtocolSsh },
          acquisitionFails env mcm fuel ma.Id = true ∧
            ev = disableUpdate env (now ma.Id) ma.Id) := by
  have hmem : ∀ mid, mid ∈ schedule ((ListByCond { Machine.new with
      Status := env.MachineStatusEnable, Protocol := MachineProtocolSsh }).map Machine.Id) ↔
      ∃ ma ∈ ListByCond { Machine.new with
        Status := env.MachineStatusEnable, Protocol := MachineProtocolSsh }, ma.Id = mid := by
    intro mid
    rw [(hsched _).mem_iff, List.mem_map]
  obtain ⟨w1, hrun, hev, hst, _⟩ := runUnits_of_recovered env mcm fuel now
    (schedule ((ListByCond { Machine.new with
      Status := env.MachineStatusEnable, Protocol := MachineProtocolSsh }).map Machine.Id)) w
    (by
      intro mid hmid
      obtain ⟨ma, hma, rfl⟩ := (hmem mid).1 hmid
      exact hrec ma hma)
  refine ⟨w1, hrun, fun ma hma st hsnap => hst ma.Id ((hmem ma.Id).2 ⟨ma, hma, rfl⟩) st hsnap, ?_⟩
  intro ev
  rw [hev, List.mem_append, List.mem_map]
  constructor
  · rintro (h | ⟨mid, hmid, rfl⟩)
    · exact Or.inl h
    · rw [List.mem_filter] at hmid
      obtain ⟨ma, hma, rfl⟩ := (hmem mid).1 hmid.1
      exact Or.inr ⟨ma, hma, hmid.2, rfl⟩
  · rintro (h | ⟨ma, hma, hf, rfl⟩)
    · exact Or.inl h
    · exact Or.inr ⟨ma.Id, List.mem_filter.2 ⟨(hmem ma.Id).2 ⟨ma, hma, rfl⟩, hf⟩, rfl⟩

/-- Witness of C11, amended: the sweep of the examples over the machines 1 and
13, with the unit of machine 13 run first; its only panic is the run-time
error in the acquisition of machine 13. -/
theorem TimerUpdateStats_isolated_witness :
    (∀ l : List Nat, l.reverse.Perm l) ∧
    (∀ ma ∈ exListByCond { Machine.new with
        Status := exEnv.MachineStatusEnable, Protocol := 1 },
      unitIsRecovered exEnv exSweepMcm 1 ma.Id = true) ∧
    ∃ w1, TimerUpdateStats exEnv exSweepMcm exListByCond 1 List.reverse 1 (fun _ => 99)
        exWorld = .returned w1 ∧
      (∀ ma ∈ exListByCond { Machine.new with
          Status := exEnv.MachineStatusEnable, Protocol := 1 },
        ∀ st, unitSnapshot exEnv exSweepMcm 1 ma.Id = some st → w1.stats ma.Id = some st) ∧
      (∀ ev, ev ∈ w1.events ↔ ev ∈ exWorld.events ∨
        ∃ ma ∈ exListByCond { Machine.new with
            Status := exEnv.MachineStatusEnable, Protocol := 1 },
          acquisitionFails exEnv exSweepMcm 1 ma.Id = true ∧
            ev = disableUpdate exEnv ((fun _ => 99) ma.Id) ma.Id) :=
  ⟨List.reverse_perm, by decide,
    TimerUpdateStats_isolated exEnv exSweepMcm exListByCond 1 List.reverse 1 (fun _ => 99)
      exWorld List.reverse_perm (by decide)⟩

end Mayfly
